import Mathlib

/-!
Verification of the integram webhook router (`handlers.go`).

This file gives a shallow embedding of the token-based hook resolution and
dispatch router (`serviceHookHandler`), the internal event fan-out
(`TriggerEventHandler`) and the OAuth callback flow (`oAuthCallback`).

External collaborators (the mongo store, the service registry, the per-service
handlers, the HTTP request) are modelled as an explicit environment record
whose fields carry the results those collaborators would return; the handler
bodies themselves are translated statement by statement from the Go source.
Side effects (handler invocations, log lines, raw-payload file dumps, the HTTP
response) are modelled as an explicit event trace and response value.  Go
pointer sharing of the dispatch `Context` is modelled by a context reference
number recorded on every `WebhookHandler` invocation: the single context
allocated at the top of `serviceHookHandler` has reference 0, and each
`ctxCopy := *ctx` clone in auto-detect mode allocates a fresh reference.
A Go runtime panic (out-of-range string slice, nil-error dereference) is
modelled as a distinguished `panic` outcome.
-/

namespace Integram

/-- Telegram chat as used by the router: only the id is consulted. -/
structure Chat where
  ID : Int
deriving DecidableEq, Repr

/-- Telegram user as embedded in the stored user document. -/
structure User where
  ID : Int
deriving DecidableEq, Repr

/-- A stored subscription record binding a token to services and target chats
(Go struct `serviceHook`). -/
structure serviceHook where
  Token : String
  Services : List String
  Chats : List Int
deriving DecidableEq, Repr

/-- Stored user document as returned by `ctx.FindUser`: the embedded `User`
plus the hooks and the per-service `Settings` / `Protected` maps (modelled as
association lists keyed by service name). -/
structure userData where
  User : User
  Hooks : List serviceHook
  Settings : List (String × String)
  Protected : List (String × String)
deriving DecidableEq, Repr

/-- Stored chat document as returned by `ctx.FindChat`. -/
structure chatData where
  Chat : Chat
  Hooks : List serviceHook
deriving DecidableEq, Repr

/-- Go field promotion: `user.ID` on a `userData` reads the embedded user id. -/
def userData.ID (u : userData) : Int := u.User.ID

/-- Go field promotion: `chat.ID` on a `chatData` reads the embedded chat id. -/
def chatData.ID (c : chatData) : Int := c.Chat.ID

/-- The dispatch context threaded through the handler (`Context` in the
source); the db handle and the gin request are dropped, the mutable fields
`ServiceName`, `User`, `Chat` are kept. -/
structure Context where
  ServiceName : String
  User : User
  Chat : Chat
deriving DecidableEq, Repr

/-- Errors returned by a `WebhookHandler`: either the distinguished flood
sentinel (`ErrorFlood` in the source, compared by identity) or any other
error with its message. -/
inductive Err where
  | flood
  | other (msg : String)
deriving DecidableEq, Repr

/-- Modelled from the spec: the `ErrorFlood` sentinel is defined outside the
`src/` slice; its message text is immaterial to the router, which only
compares the error against the sentinel and echoes `err.Error()` into the
429 body. -/
def errorFloodMessage : String := "flood"

/-- `err.Error()` for a modelled handler error. -/
def Err.message : Err → String
  | .flood => errorFloodMessage
  | .other m => m

/-- Modelled from the spec: `SliceContainsString` is defined outside the
`src/` slice; by its name and the spec sentence "every key whose service name
is not present in `Hook.Services`" it tests membership of a string in the
slice. -/
def SliceContainsString (slice : List String) (s : String) : Bool :=
  slice.contains s

/-- Observable side effects of one `serviceHookHandler` run. -/
inductive Event where
  | invoke (ctxRef : Nat) (serviceName : String) (chatID : Int)
  | logWebhookError (token : String) (e : Err)
  | warnNoTargetChats (token : String)
  | warnNotHandled (token : String)
  | logUnknownUserToken (token : String)
  | logUnknownChatToken (token : String)
  | writeRawFile (name : String) (content : String)
  | logTokenHandlerError (token : String) (msg : String)
  | logFindChatsError (token : String) (msg : String)
  | logFindUsersError (token : String) (msg : String)
deriving DecidableEq, Repr

/-- The HTTP response written by a handler: nothing at all (`return` with no
write), a bare status (`c.AbortWithStatus` / `c.AbortWithError`), a status
with a string body (`c.String`), or a redirect (`c.Redirect`). -/
inductive Response where
  | silent
  | status (code : Nat)
  | strBody (code : Nat) (body : String)
  | redirect (code : Nat) (url : String)
deriving DecidableEq, Repr

/-- The status code carried by a response, when one was written. -/
def Response.code? : Response → Option Nat
  | .silent => none
  | .status c => some c
  | .strBody c _ => some c
  | .redirect c _ => some c

/-- Outcome of a `serviceHookHandler` run: a normal return with the response
written and the event trace, or a Go runtime panic. -/
inductive HOutcome where
  | normal (resp : Response) (events : List Event)
  | panic (events : List Event)
deriving DecidableEq, Repr

/-- Event trace of an outcome. -/
def HOutcome.events : HOutcome → List Event
  | .normal _ evs => evs
  | .panic evs => evs

/-- Response of an outcome, when the run did not panic. -/
def HOutcome.respOf : HOutcome → Option Response
  | .normal r _ => some r
  | .panic _ => none

/-- Status code of an outcome, when a response with a status was written. -/
def HOutcome.statusOf (o : HOutcome) : Option Nat :=
  o.respOf.bind Response.code?

/-- Environment of one `serviceHookHandler` request: the request data and the
results every external collaborator would return during the run. -/
structure Env where
  now : Int
  requestBody : String
  registered : String → Bool
  tokenHandlerDefined : Bool
  tokenHandlerResult : Bool × Option (List (String × String)) × Option String
  findChatsResult : List chatData × Option String
  findUsersResult : List userData × Option String
  webhookResult : String → Int → Option Err
  findUser : userData × Option String
  findChat : chatData × Option String

/-- Go `token[0:1]` on a non-empty string: the one-character prefix. -/
def tokenStart (token : String) : String :=
  String.mk (token.data.take 1)

/-- The diagnostic dump file name `fmt.Sprintf("./raw/%v_%d.json", token,
time.Now().Unix())`. -/
def rawFileName (token : String) (now : Int) : String :=
  "./raw/" ++ token ++ "_" ++ toString now ++ ".json"

/-- Lines 366-386 of `handlers.go`: scan `user.Hooks` for the first hook with
this token; narrow `user.Hooks` to that single entry, set the context service
name when the hook names exactly one service, and delete from
`user.Protected` and `user.Settings` every key whose service name is not in
`hook.Services` (the Scoped Secret Filter). -/
def narrowUserHooks (token : String) (hooks : List serviceHook) (ctx : Context)
    (user : userData) : Context × userData :=
  match hooks with
  | [] => (ctx, user)
  | hook :: rest =>
    if hook.Token = token then
      let user1 := { user with Hooks := [hook] }
      let ctx1 := if hook.Services.length = 1 then
          { ctx with ServiceName := hook.Services.headD "" }
        else ctx
      let user2 := { user1 with
        Protected := user1.Protected.filter
          (fun kv => SliceContainsString hook.Services kv.1) }
      let user3 := { user2 with
        Settings := user2.Settings.filter
          (fun kv => SliceContainsString hook.Services kv.1) }
      (ctx1, user3)
    else
      narrowUserHooks token rest ctx user

/-- Result of the inner chat loop of the dispatch loop (lines 439-453). -/
structure ChatLoopOut where
  ctx : Context
  isHandled : Bool
  events : List Event
  flood : Bool
deriving Repr

/-- Lines 439-453 of `handlers.go`: for each target chat id mutate the shared
context's chat in place, invoke the service's `WebhookHandler`, log any
error, abort the whole loop on the flood sentinel, and mark the delivery
handled on success.  The invocation records context reference 0: the Go code
passes the same `ctx` pointer every time. -/
def chatLoop (env : Env) (token sName : String) (ctx : Context)
    (chats : List Int) (isHandled : Bool) : ChatLoopOut :=
  match chats with
  | [] => ⟨ctx, isHandled, [], false⟩
  | chatID :: rest =>
    let ctx1 := { ctx with Chat := { ID := chatID } }
    let ev := Event.invoke 0 sName chatID
    match env.webhookResult sName chatID with
    | none =>
      let o := chatLoop env token sName ctx1 rest true
      ⟨o.ctx, o.isHandled, ev :: o.events, o.flood⟩
    | some Err.flood =>
      ⟨ctx1, isHandled, [ev, Event.logWebhookError token Err.flood], true⟩
    | some (Err.other m) =>
      let o := chatLoop env token sName ctx1 rest isHandled
      ⟨o.ctx, o.isHandled,
        ev :: Event.logWebhookError token (Err.other m) :: o.events, o.flood⟩

/-- Result of the service loop of the dispatch loop (lines 430-459). -/
structure ServiceLoopOut where
  ctx : Context
  hookChats : List Int
  isHandled : Bool
  events : List Event
  flood : Bool
deriving Repr

/-- Lines 430-459 of `handlers.go`: for each service named by the matched
hook, resolve the service; if the hook carries no chats and the context
already resolved one, promote that single chat into `hook.Chats` (the range
variable, so the promotion persists for the remaining services); run the
chat loop, or warn when there is no target chat at all. -/
def serviceLoop (env : Env) (token : String) (ctx : Context)
    (hookChats : List Int) (services : List String) (isHandled : Bool) :
    ServiceLoopOut :=
  match services with
  | [] => ⟨ctx, hookChats, isHandled, [], false⟩
  | sName :: rest =>
    if env.registered sName then
      let ctx1 := { ctx with ServiceName := sName }
      let hookChats1 := if hookChats = [] ∧ ctx1.Chat.ID ≠ 0 then
          [ctx1.Chat.ID] else hookChats
      if hookChats1 = [] then
        let o := serviceLoop env token ctx1 hookChats1 rest isHandled
        ⟨o.ctx, o.hookChats, o.isHandled,
          Event.warnNoTargetChats token :: o.events, o.flood⟩
      else
        let c := chatLoop env token sName ctx1 hookChats1 isHandled
        if c.flood then
          ⟨c.ctx, hookChats1, c.isHandled, c.events, true⟩
        else
          let o := serviceLoop env token c.ctx hookChats1 rest c.isHandled
          ⟨o.ctx, o.hookChats, o.isHandled, c.events ++ o.events, o.flood⟩
    else
      serviceLoop env token ctx hookChats rest isHandled

/-- Lines 427-467 of `handlers.go`: find the first hook of the resolved owner
whose token matches, fan the delivery out over its services and chats,
respond 429 with the flood message on the flood sentinel, otherwise warn when
nothing was handled and acknowledge with HTTP 200; when no hook matches the
handler returns without writing a response. -/
def dispatchHooks (env : Env) (token : String) (ctx : Context)
    (hooks : List serviceHook) : HOutcome :=
  match hooks with
  | [] => .normal .silent []
  | hook :: rest =>
    if hook.Token = token then
      let o := serviceLoop env token ctx hook.Chats hook.Services false
      if o.flood then
        .normal (.strBody 429 errorFloodMessage) o.events
      else
        .normal (.status 200)
          (o.events ++ if o.isHandled then [] else [Event.warnNotHandled token])
    else
      dispatchHooks env token ctx rest

/-- Lines 322-336 of `handlers.go` (auto-detect mode, chat query): for each
matched chat clone the context (`ctxCopy := *ctx`) — each clone gets a fresh
context reference — invoke the `WebhookHandler`, log errors and abort on the
flood sentinel.  Returns the events and whether the flood sentinel aborted
the loop. -/
def autoChatLoop (env : Env) (token sName : String) (ctx : Context)
    (chats : List chatData) (ref : Nat) : List Event × Bool :=
  match chats with
  | [] => ([], false)
  | chat :: rest =>
    let ctxCopy := { ctx with Chat := chat.Chat }
    let ev := Event.invoke ref sName ctxCopy.Chat.ID
    match env.webhookResult sName chat.Chat.ID with
    | none =>
      let o := autoChatLoop env token sName ctx rest (ref + 1)
      (ev :: o.1, o.2)
    | some Err.flood =>
      ([ev, Event.logWebhookError token Err.flood], true)
    | some (Err.other m) =>
      let o := autoChatLoop env token sName ctx rest (ref + 1)
      (ev :: Event.logWebhookError token (Err.other m) :: o.1, o.2)

/-- Lines 344-359 of `handlers.go` (auto-detect mode, user query): as
`autoChatLoop`, but the cloned context is scoped to the matched user and the
target chat is the user's own 1:1 chat (`Chat{ID: user.ID}`). -/
def autoUserLoop (env : Env) (token sName : String) (ctx : Context)
    (users : List userData) (ref : Nat) : List Event × Bool :=
  match users with
  | [] => ([], false)
  | user :: rest =>
    let ctxCopy := { ctx with User := user.User, Chat := { ID := user.ID } }
    let ev := Event.invoke ref sName ctxCopy.Chat.ID
    match env.webhookResult sName user.ID with
    | none =>
      let o := autoUserLoop env token sName ctx rest (ref + 1)
      (ev :: o.1, o.2)
    | some Err.flood =>
      ([ev, Event.logWebhookError token Err.flood], true)
    | some (Err.other m) =>
      let o := autoUserLoop env token sName ctx rest (ref + 1)
      (ev :: Event.logWebhookError token (Err.other m) :: o.1, o.2)

/-- Lines 293-360 of `handlers.go` (auto-detect mode): resolve the service by
name, run its `TokenHandler`, log its error but continue, stop silently on a
nil query, otherwise look up the matching chats or users and fan out with a
cloned context per match; the flood sentinel aborts with 429, and a completed
loop writes no response. -/
def autoDetect (env : Env) (token service : String) (ctx : Context) :
    HOutcome :=
  if env.registered service then
    let ctx1 := { ctx with ServiceName := service }
    if env.tokenHandlerDefined then
      let queryChat := env.tokenHandlerResult.1
      let query := env.tokenHandlerResult.2.1
      let evs0 := match env.tokenHandlerResult.2.2 with
        | some m => [Event.logTokenHandlerError token m]
        | none => []
      match query with
      | none => .normal .silent evs0
      | some _ =>
        if queryChat then
          let evs1 := evs0 ++ match env.findChatsResult.2 with
            | some m => [Event.logFindChatsError token m]
            | none => []
          let o := autoChatLoop env token service ctx1 env.findChatsResult.1 1
          if o.2 then .normal (.strBody 429 errorFloodMessage) (evs1 ++ o.1)
          else .normal .silent (evs1 ++ o.1)
        else
          let evs1 := evs0 ++ match env.findUsersResult.2 with
            | some m => [Event.logFindUsersError token m]
            | none => []
          let o := autoUserLoop env token service ctx1 env.findUsersResult.1 1
          if o.2 then .normal (.strBody 429 errorFloodMessage) (evs1 ++ o.1)
          else .normal .silent (evs1 ++ o.1)
    else .normal .silent []
  else .normal .silent []

/-- The context built at the top of `serviceHookHandler` (lines 272-279):
zero values, with the service name taken from the path when present. -/
def initialContext (service : String) : Context :=
  { ServiceName := if service ≠ "" then service else "",
    User := { ID := 0 }, Chat := { ID := 0 } }

/-- `serviceHookHandler` (lines 268-468 of `handlers.go`): route by the
token's first character.  Auto-detect when an explicit service is given with
an empty or placeholder token; `u` resolves a user, applies the Scoped Secret
Filter and dispatches; `c`/`h` resolve a chat and dispatch; a failed lookup
dumps the raw payload to a token/timestamp file, logs, and returns silently;
any other first character responds 404.  Evaluating `token[0:1]` on an empty
token outside auto-detect is a Go slice-bounds panic. -/
def serviceHookHandler (env : Env) (token service : String) : HOutcome :=
  let ctx := initialContext service
  if service ≠ "" ∧ (token = "service" ∨ token = "") then
    autoDetect env token service ctx
  else if token = "" then
    HOutcome.panic []
  else if tokenStart token = "u" then
    let p := narrowUserHooks token (env.findUser.1).Hooks ctx env.findUser.1
    let ctx1 := { p.1 with User := p.2.User }
    if env.findUser.2 = none ∧ p.2.ID > 0 then
      dispatchHooks env token ctx1 p.2.Hooks
    else
      .normal .silent
        [Event.writeRawFile (rawFileName token env.now) env.requestBody,
         Event.logUnknownUserToken token]
  else if tokenStart token = "c" ∨ tokenStart token = "h" then
    if env.findChat.2 = none ∧ env.findChat.1.ID ≠ 0 then
      let ctx1 := { ctx with Chat := env.findChat.1.Chat }
      dispatchHooks env token ctx1 env.findChat.1.Hooks
    else
      .normal .silent
        [Event.writeRawFile (rawFileName token env.now) env.requestBody,
         Event.logUnknownChatToken token]
  else
    .normal (.status 404) []

/-- A service descriptor as consulted by `TriggerEventHandler`: its name and
whether an `EventHandler` is configured. -/
structure Service where
  Name : String
  hasEventHandler : Bool
deriving DecidableEq, Repr

/-- Observable side effects of one `TriggerEventHandler` run. -/
inductive TEvent where
  | dbClone
  | storeFindChats
  | storeFindUsers
  | logFindError (msg : String)
  | eventInvoke (id : Int) (data : String)
  | logEventError (msg : String)
deriving DecidableEq, Repr

/-- Environment of one `TriggerEventHandler` run: the store query results and
the outcome of the `EventHandler` for each target id. -/
structure TEnv where
  findChatsResult : List chatData × Option String
  findUsersResult : List userData × Option String
  eventResult : Int → Option String

/-- Lines 238-245 of `handlers.go`: invoke the `EventHandler` once per
matched chat, logging per-target errors without aborting. -/
def triggerChatLoop (env : TEnv) (data : String) (chats : List chatData) :
    List TEvent :=
  match chats with
  | [] => []
  | chat :: rest =>
    let ev := TEvent.eventInvoke chat.Chat.ID data
    match env.eventResult chat.Chat.ID with
    | none => ev :: triggerChatLoop env data rest
    | some m => ev :: TEvent.logEventError m :: triggerChatLoop env data rest

/-- Lines 253-263 of `handlers.go`: invoke the `EventHandler` once per
matched user (scoped to the user's 1:1 chat), logging per-target errors
without aborting. -/
def triggerUserLoop (env : TEnv) (data : String) (users : List userData) :
    List TEvent :=
  match users with
  | [] => []
  | user :: rest =>
    let ev := TEvent.eventInvoke user.ID data
    match env.eventResult user.ID with
    | none => ev :: triggerUserLoop env data rest
    | some m => ev :: TEvent.logEventError m :: triggerUserLoop env data rest

/-- `TriggerEventHandler` (lines 216-266 of `handlers.go`): a missing
`EventHandler` is an immediate error; a nil query returns nil with no store
interaction at all; otherwise clone the store session, run the chat or user
query (logging a query error), and fan the payload out to every match. -/
def Service.TriggerEventHandler (s : Service) (env : TEnv) (queryChat : Bool)
    (bsonQuery : Option (List (String × String))) (data : String) :
    Option String × List TEvent :=
  if s.hasEventHandler then
    match bsonQuery with
    | none => (none, [])
    | some _ =>
      if queryChat then
        let evs := match env.findChatsResult.2 with
          | some m => [TEvent.logFindError m]
          | none => []
        (none, TEvent.dbClone :: TEvent.storeFindChats :: evs ++
          triggerChatLoop env data env.findChatsResult.1)
      else
        let evs := match env.findUsersResult.2 with
          | some m => [TEvent.logFindError m]
          | none => []
        (none, TEvent.dbClone :: TEvent.storeFindUsers :: evs ++
          triggerUserLoop env data env.findUsersResult.1)
  else
    (some ("EventHandler missed for " ++ s.Name ++ " service"), [])

/-- OAuth correlation record (`oAuthIDCache`): only the bound user id is
consulted by the callback's validity check. -/
structure oAuthIDCache where
  UserID : Int
deriving DecidableEq, Repr

/-- The user's per-service credential bundle (`userProtected`) as written by
the OAuth callback. -/
structure userProtected where
  OAuthToken : String
  OAuthRefreshToken : String
  OAuthExpireDate : Option Int
deriving DecidableEq, Repr

/-- Which OAuth configuration the service descriptor exposes: OAuth2 with a
service-supplied `AccessTokenReceiver`, default OAuth2 (code exchange),
OAuth1, or none at all. -/
inductive OAuthConfigKind where
  | oauth2custom
  | oauth2default
  | oauth1
  | unconfigured
deriving DecidableEq, Repr

/-- The service descriptor fields consulted by `oAuthCallback`. -/
structure OAuthService where
  kind : OAuthConfigKind
  hasOAuthSuccessful : Bool
  botUsername : String
deriving DecidableEq, Repr

/-- Observable side effects of one `oAuthCallback` run.  The
`saveProtectedSettings` event records the bundle the callback attempted to
persist together with the store's answer. -/
inductive OEvent where
  | logUnknownAuthToken
  | logProviderError (msg : String)
  | logCodeEmpty
  | logVerifyError
  | logProtectedSettingsError (msg : String)
  | saveProtectedSettings (ps : userProtected) (result : Option String)
  | logSaveError (msg : String)
  | doJobOAuthSuccessful
deriving DecidableEq, Repr

/-- Outcome of one `oAuthCallback` run. -/
inductive OOutcome where
  | normal (resp : Response) (events : List OEvent)
  | panic (events : List OEvent)
deriving DecidableEq, Repr

/-- Event trace of an OAuth outcome. -/
def OOutcome.events : OOutcome → List OEvent
  | .normal _ evs => evs
  | .panic evs => evs

/-- Status code written by an OAuth outcome, when any. -/
def OOutcome.statusOf : OOutcome → Option Nat
  | .normal r _ => r.code?
  | .panic _ => none

/-- Response of an OAuth outcome, when the run did not panic. -/
def OOutcome.respOf : OOutcome → Option Response
  | .normal r _ => some r
  | .panic _ => none

/-- Environment of one `oAuthCallback` request: the two alternate correlation
query parameters, the correlation-record and provider lookups, the service
configuration, and the results of the provider exchange and of the settings
store. -/
structure OEnv where
  queryU : String
  queryState : String
  cacheVal : oAuthIDCache
  cacheErr : Option String
  providerErr : Option String
  service : OAuthService
  formCode : String
  receiverResult : String × Option Int × String × Option String
  exchangeToken : Option (String × String × Int)
  exchangeErr : Option String
  oauth1Result : String × Option String
  protectedSettings0 : userProtected
  protectedSettingsErr : Option String
  saveErr : Option String

/-- Lines 608-614 of `handlers.go`: the protected-settings bundle the
callback writes — the access token always, the refresh token only when
non-empty, the expiry only when present. -/
def savedBundle (env : OEnv) (accessToken refreshToken : String)
    (expiresAt : Option Int) : userProtected :=
  let ps0 := env.protectedSettings0
  let ps1 := { ps0 with OAuthToken := accessToken }
  let ps2 := if refreshToken ≠ "" then
      { ps1 with OAuthRefreshToken := refreshToken }
    else ps1
  match expiresAt with
  | some e => { ps2 with OAuthExpireDate := some e }
  | none => ps2

/-- Lines 595-625 of `handlers.go`: the common continuation of the callback
once the credential exchange produced `(accessToken, refreshToken, expiresAt,
err)`.  An empty access token logs and answers `c.String(403, err.Error())` —
which dereferences a nil error and panics when `err` is nil.  Otherwise the
saved bundle is written into the user's protected settings (a save failure is
only logged), the service's `OAuthSuccessful` job is scheduled when
configured, and the browser is redirected to the bot's deep link. -/
def oAuthFinish (env : OEnv) (accessToken refreshToken : String)
    (expiresAt : Option Int) (err : Option String) : OOutcome :=
  if accessToken = "" then
    match err with
    | some m => .normal (.strBody 403 m) [OEvent.logVerifyError]
    | none => .panic [OEvent.logVerifyError]
  else
    let evs1 := match env.protectedSettingsErr with
      | some m => [OEvent.logProtectedSettingsError m]
      | none => []
    let ps3 := savedBundle env accessToken refreshToken expiresAt
    let evs2 := OEvent.saveProtectedSettings ps3 env.saveErr ::
      match env.saveErr with
      | some m => [OEvent.logSaveError m]
      | none => []
    let evs3 := if env.service.hasOAuthSuccessful then
        [OEvent.doJobOAuthSuccessful]
      else []
    .normal (.redirect 302 ("https://telegram.me/" ++ env.service.botUsername))
      (evs1 ++ evs2 ++ evs3)

/-- `oAuthCallback` (lines 528-625 of `handlers.go`): read the correlation id
from either the `u` or the `state` query parameter, reject an unknown or
invalid correlation record with 403, reject a failed provider lookup with
500, run the configured credential exchange (custom OAuth2 receiver, default
OAuth2 code exchange — an empty code only logs and returns — or OAuth1), and
finish through `oAuthFinish`. -/
def oAuthCallback (env : OEnv) : OOutcome :=
  let _authTempID := if env.queryU ≠ "" then env.queryU else env.queryState
  if env.cacheErr = none ∧ env.cacheVal.UserID > 0 then
    match env.providerErr with
    | some m => .normal (.strBody 500 "Error occured") [OEvent.logProviderError m]
    | none =>
      match env.service.kind with
      | .oauth2custom =>
        oAuthFinish env env.receiverResult.1 env.receiverResult.2.2.1
          env.receiverResult.2.1 env.receiverResult.2.2.2
      | .oauth2default =>
        if env.formCode = "" then .normal .silent [OEvent.logCodeEmpty]
        else
          match env.exchangeToken with
          | some (a, r, e) => oAuthFinish env a r (some e) env.exchangeErr
          | none => oAuthFinish env "" "" none env.exchangeErr
      | .oauth1 =>
        oAuthFinish env env.oauth1Result.1 "" none env.oauth1Result.2
      | .unconfigured => oAuthFinish env "" "" none none
  else
    .normal (.status 403) [OEvent.logUnknownAuthToken]

/-- The `(service, chatID)` pairs of the `WebhookHandler` invocations of a
trace, in order. -/
def invokeTargets : List Event → List (String × Int)
  | [] => []
  | Event.invoke _ s c :: rest => (s, c) :: invokeTargets rest
  | _ :: rest => invokeTargets rest

/-- The context references of the `WebhookHandler` invocations of a trace,
in order. -/
def invokeRefs : List Event → List Nat
  | [] => []
  | Event.invoke r _ _ :: rest => r :: invokeRefs rest
  | _ :: rest => invokeRefs rest

/-- The handler errors logged with the given token in a trace, in order. -/
def loggedErrors (token : String) : List Event → List Err
  | [] => []
  | Event.logWebhookError t e :: rest =>
    if t = token then e :: loggedErrors token rest
    else loggedErrors token rest
  | _ :: rest => loggedErrors token rest

/-- The effective target chat set of the dispatch loop: `hook.Chats` when
non-empty, else the single chat already resolved from the token lookup when
one was (id ≠ 0), else nothing. -/
def effTargetChats (hookChats : List Int) (resolvedID : Int) : List Int :=
  if hookChats = [] ∧ resolvedID ≠ 0 then [resolvedID] else hookChats

/-- The planned fan-out targets: every chat of every service, services
outermost, both in stored order. -/
def targetsOf : List String → List Int → List (String × Int)
  | [], _ => []
  | s :: rest, chats => chats.map (fun c => (s, c)) ++ targetsOf rest chats

/-- The planned fan-out targets of a matched hook given the chat id resolved
from the token lookup. -/
def hookTargets (hook : serviceHook) (resolvedID : Int) :
    List (String × Int) :=
  targetsOf hook.Services (effTargetChats hook.Chats resolvedID)

/-- Reference semantics of one dispatch fan-out over a planned target list:
which targets actually get invoked, which handler errors get logged, whether
the flood sentinel aborted the loop, and whether any invocation succeeded. -/
structure RunOut where
  invoked : List (String × Int)
  logs : List Err
  flood : Bool
  handled : Bool
deriving DecidableEq, Repr

/-- Run the fan-out failure policy over a planned target list: invoke in
order, log every error, abort immediately after a flood error, record
whether any target succeeded. -/
def runDispatch (res : String → Int → Option Err) :
    List (String × Int) → RunOut
  | [] => ⟨[], [], false, false⟩
  | (s, c) :: rest =>
    match res s c with
    | none =>
      let r := runDispatch res rest
      ⟨(s, c) :: r.invoked, r.logs, r.flood, true⟩
    | some Err.flood => ⟨[(s, c)], [Err.flood], true, false⟩
    | some (Err.other m) =>
      let r := runDispatch res rest
      ⟨(s, c) :: r.invoked, Err.other m :: r.logs, r.flood, r.handled⟩

/-- A baseline concrete request environment for the closed runs below: every
service registered, every handler succeeding, both lookups failing. -/
def env0 : Env :=
  { now := 7
    requestBody := "payload"
    registered := fun _ => true
    tokenHandlerDefined := true
    tokenHandlerResult := (true, none, none)
    findChatsResult := ([], none)
    findUsersResult := ([], none)
    webhookResult := fun _ _ => none
    findUser := ({ User := { ID := 0 }, Hooks := [], Settings := [],
                   Protected := [] }, some "not found")
    findChat := ({ Chat := { ID := 0 }, Hooks := [] }, some "not found") }

/-- A concrete hook with two services and two chats. -/
def cfhook : serviceHook := { Token := "ct", Services := ["a", "b"], Chats := [10, 20] }

/-- A concrete hook with two services and no chats. -/
def cehook : serviceHook := { Token := "ct", Services := ["a", "b"], Chats := [] }

/-- A concrete dispatch context whose chat was resolved from a token lookup. -/
def ctxC : Context := { ServiceName := "", User := { ID := 0 }, Chat := { ID := 5 } }

/-- Environment whose handler floods exactly at target `(a, 20)`. -/
def envFld : Env := { env0 with
  webhookResult := fun s c => if s = "a" ∧ c = 20 then some Err.flood else none }

/-- Environment whose handler fails with a non-flood error on every target. -/
def envErr : Env := { env0 with
  webhookResult := fun _ _ => some (Err.other "boom") }

/-- A concrete user-addressed hook scoped to one service. -/
def uhook : serviceHook := { Token := "utok", Services := ["trello"], Chats := [77] }

/-- A concrete stored user owning `uhook` with settings for two services. -/
def user42 : userData :=
  { User := { ID := 42 }, Hooks := [uhook],
    Settings := [("trello", "s1"), ("gmail", "s2")],
    Protected := [("trello", "p1"), ("gmail", "p2")] }

/-- Environment resolving the user token to `user42`. -/
def envC1 : Env := { env0 with findUser := (user42, none) }

/-- Environment resolving a chat token to a chat owning `cfhook`. -/
def envC5 : Env := { env0 with
  findChat := ({ Chat := { ID := 5 }, Hooks := [cfhook] }, none) }

/-- Environment for an auto-detect run matching two chats. -/
def envAuto : Env := { env0 with
  tokenHandlerResult := (true, some [], none)
  findChatsResult := ([{ Chat := { ID := 3 }, Hooks := [] },
                       { Chat := { ID := 4 }, Hooks := [] }], none) }

/-- A baseline concrete OAuth callback environment: valid correlation record,
OAuth2 service with a custom receiver, success job configured. -/
def oenvBase : OEnv :=
  { queryU := "abc", queryState := ""
    cacheVal := { UserID := 42 }, cacheErr := none
    providerErr := none
    service := { kind := OAuthConfigKind.oauth2custom,
                 hasOAuthSuccessful := true, botUsername := "bot" }
    formCode := ""
    receiverResult := ("", none, "", none)
    exchangeToken := none, exchangeErr := none
    oauth1Result := ("", none)
    protectedSettings0 := { OAuthToken := "", OAuthRefreshToken := "",
                            OAuthExpireDate := none }
    protectedSettingsErr := none, saveErr := none }

/-- OAuth environment whose exchange yields an empty token and a nil error. -/
def oenvC8 : OEnv := oenvBase

/-- OAuth environment whose exchange succeeds but whose settings save
fails. -/
def oenvC10 : OEnv := { oenvBase with
  receiverResult := ("tok", some 99, "ref", none), saveErr := some "dbdown" }

/-- A baseline concrete event fan-out environment. -/
def tenv0 : TEnv :=
  { findChatsResult := ([], none), findUsersResult := ([], none),
    eventResult := fun _ => none }

/-- A concrete service with an `EventHandler` configured. -/
def svcT : Service := { Name := "x", hasEventHandler := true }

lemma sliceContains_mem {l : List String} {s : String}
    (h : SliceContainsString l s = true) : s ∈ l := by
  simpa [SliceContainsString] using h

lemma invokeTargets_append (l1 l2 : List Event) :
    invokeTargets (l1 ++ l2) = invokeTargets l1 ++ invokeTargets l2 := by
  induction l1 with
  | nil => rfl
  | cons e rest ih => cases e <;> simp [invokeTargets, ih]

lemma invokeRefs_append (l1 l2 : List Event) :
    invokeRefs (l1 ++ l2) = invokeRefs l1 ++ invokeRefs l2 := by
  induction l1 with
  | nil => rfl
  | cons e rest ih => cases e <;> simp [invokeRefs, ih]

lemma loggedErrors_append (token : String) (l1 l2 : List Event) :
    loggedErrors token (l1 ++ l2) =
      loggedErrors token l1 ++ loggedErrors token l2 := by
  induction l1 with
  | nil => rfl
  | cons e rest ih =>
    cases e <;> simp [loggedErrors, ih]
    split <;> simp [ih]

lemma mem_of_mem_loggedErrors {token : String} {e : Err} :
    ∀ {evs : List Event}, e ∈ loggedErrors token evs →
      Event.logWebhookError token e ∈ evs := by
  intro evs
  induction evs with
  | nil => simp [loggedErrors]
  | cons ev rest ih =>
    cases ev <;> simp [loggedErrors] <;> intro h
    case logWebhookError t e' =>
      by_cases ht : t = token
      · subst ht
        simp [loggedErrors] at h
        rcases h with h | h
        · simp [h]
        · exact Or.inr (ih h)
      · simp [loggedErrors, ht] at h
        exact Or.inr (ih h)
    all_goals exact ih h

lemma runDispatch_append (res : String → Int → Option Err)
    (T1 T2 : List (String × Int)) :
    runDispatch res (T1 ++ T2) =
      if (runDispatch res T1).flood then runDispatch res T1
      else ⟨(runDispatch res T1).invoked ++ (runDispatch res T2).invoked,
            (runDispatch res T1).logs ++ (runDispatch res T2).logs,
            (runDispatch res T2).flood,
            (runDispatch res T1).handled || (runDispatch res T2).handled⟩ := by
  induction T1 with
  | nil => simp [runDispatch]
  | cons t rest ih =>
    obtain ⟨s, c⟩ := t
    cases hres : res s c with
    | none => simp [runDispatch, hres, ih]; split <;> simp
    | some e =>
      cases e with
      | flood => simp [runDispatch, hres]
      | other m => simp [runDispatch, hres, ih]; split <;> simp

lemma chatLoop_run (env : Env) (token sName : String) (chats : List Int) :
    ∀ (ctx : Context) (h0 : Bool),
      invokeTargets (chatLoop env token sName ctx chats h0).events =
        (runDispatch env.webhookResult
          (chats.map (fun c => (sName, c)))).invoked ∧
      loggedErrors token (chatLoop env token sName ctx chats h0).events =
        (runDispatch env.webhookResult
          (chats.map (fun c => (sName, c)))).logs ∧
      (chatLoop env token sName ctx chats h0).flood =
        (runDispatch env.webhookResult
          (chats.map (fun c => (sName, c)))).flood ∧
      (chatLoop env token sName ctx chats h0).isHandled =
        (h0 || (runDispatch env.webhookResult
          (chats.map (fun c => (sName, c)))).handled) := by
  induction chats with
  | nil => intro ctx h0; simp [chatLoop, runDispatch, invokeTargets, loggedErrors]
  | cons c rest ih =>
    intro ctx h0
    cases hres : env.webhookResult sName c with
    | none =>
      have := ih { ctx with Chat := { ID := c } } true
      simp [chatLoop, runDispatch, invokeTargets, loggedErrors, hres,
        this.1, this.2.1, this.2.2.1, this.2.2.2]
    | some e =>
      cases e with
      | flood =>
        simp [chatLoop, runDispatch, invokeTargets, loggedErrors, hres]
      | other m =>
        have := ih { ctx with Chat := { ID := c } } h0
        simp [chatLoop, runDispatch, invokeTargets, loggedErrors, hres,
          this.1, this.2.1, this.2.2.1, this.2.2.2]

lemma serviceLoop_run (env : Env) (token : String) :
    ∀ (services : List String), (∀ s ∈ services, env.registered s = true) →
    ∀ (hc : List Int), hc ≠ [] →
    ∀ (ctx : Context) (h0 : Bool),
      invokeTargets (serviceLoop env token ctx hc services h0).events =
        (runDispatch env.webhookResult (targetsOf services hc)).invoked ∧
      loggedErrors token (serviceLoop env token ctx hc services h0).events =
        (runDispatch env.webhookResult (targetsOf services hc)).logs ∧
      (serviceLoop env token ctx hc services h0).flood =
        (runDispatch env.webhookResult (targetsOf services hc)).flood ∧
      (serviceLoop env token ctx hc services h0).isHandled =
        (h0 || (runDispatch env.webhookResult (targetsOf services hc)).handled) := by
  intro services
  induction services with
  | nil =>
    intro _ hc _ ctx h0
    simp [serviceLoop, targetsOf, runDispatch, invokeTargets, loggedErrors]
  | cons sName rest ih =>
    intro hreg hc hcne ctx h0
    have hr : env.registered sName = true := hreg sName (by simp)
    have hrest : ∀ s ∈ rest, env.registered s = true :=
      fun s hs => hreg s (by simp [hs])
    have hcl := chatLoop_run env token sName hc { ctx with ServiceName := sName } h0
    have happ := runDispatch_append env.webhookResult
      (hc.map (fun c => (sName, c))) (targetsOf rest hc)
    simp only [serviceLoop, hr, if_true, hcne, ne_eq, false_and, if_false,
      ite_false, targetsOf]
    by_cases hcf : (chatLoop env token sName { ctx with ServiceName := sName }
        hc h0).flood = true
    · rw [hcf] at hcl
      rw [happ]
      rw [← hcl.2.2.1]
      simp only [if_true, hcf, ite_true]
      exact ⟨hcl.1, hcl.2.1, hcl.2.2.1, hcl.2.2.2⟩
    · have hcf' : (chatLoop env token sName { ctx with ServiceName := sName }
          hc h0).flood = false := by
        revert hcf; cases (chatLoop env token sName
          { ctx with ServiceName := sName } hc h0).flood <;> simp
      rw [hcf'] at hcl
      have hih := ih hrest hc hcne
        (chatLoop env token sName { ctx with ServiceName := sName } hc h0).ctx
        (chatLoop env token sName { ctx with ServiceName := sName } hc h0).isHandled
      rw [happ, ← hcl.2.2.1]
      simp only [hcf', if_false, ite_false, Bool.false_eq_true]
      constructor
      · rw [invokeTargets_append, hcl.1, hih.1]
      constructor
      · rw [loggedErrors_append, hcl.2.1, hih.2.1]
      constructor
      · exact hih.2.2.1
      · rw [hih.2.2.2, hcl.2.2.2, Bool.or_assoc]

lemma chatLoop_no_warn (env : Env) (token sName : String) (chats : List Int) :
    ∀ (ctx : Context) (h0 : Bool) (t : String),
      Event.warnNotHandled t ∉ (chatLoop env token sName ctx chats h0).events ∧
      Event.warnNoTargetChats t ∉
        (chatLoop env token sName ctx chats h0).events := by
  induction chats with
  | nil => intro ctx h0 t; simp [chatLoop]
  | cons c rest ih =>
    intro ctx h0 t
    cases hres : env.webhookResult sName c with
    | none =>
      have := ih { ctx with Chat := { ID := c } } true t
      simp [chatLoop, hres, this.1, this.2]
    | some e =>
      cases e with
      | flood => simp [chatLoop, hres]
      | other m =>
        have := ih { ctx with Chat := { ID := c } } h0 t
        simp [chatLoop, hres, this.1, this.2]

lemma serviceLoop_no_warnNotHandled (env : Env) (token : String)
    (services : List String) :
    ∀ (ctx : Context) (hc : List Int) (h0 : Bool) (t : String),
      Event.warnNotHandled t ∉
        (serviceLoop env token ctx hc services h0).events := by
  induction services with
  | nil => intro ctx hc h0 t; simp [serviceLoop]
  | cons sName rest ih =>
    intro ctx hc h0 t
    by_cases hr : env.registered sName = true
    · simp only [serviceLoop, hr, if_true]
      by_cases hch : (if hc = [] ∧ ({ ctx with ServiceName := sName } :
          Context).Chat.ID ≠ 0 then [({ ctx with ServiceName := sName} :
          Context).Chat.ID] else hc) = []
      · simp only [hch, if_true, ite_true, List.mem_cons]
        push_neg
        exact ⟨by simp, ih _ _ _ t⟩
      · simp only [hch, if_false, ite_false]
        by_cases hcf : (chatLoop env token sName { ctx with ServiceName := sName }
            (if hc = [] ∧ ({ ctx with ServiceName := sName } :
              Context).Chat.ID ≠ 0 then [({ ctx with ServiceName := sName} :
              Context).Chat.ID] else hc) h0).flood = true
        · simp only [hcf, if_true, ite_true]
          exact (chatLoop_no_warn env token sName _ _ _ t).1
        · simp only [hcf, if_false, ite_false, Bool.false_eq_true,
            List.mem_append]
          push_neg
          exact ⟨(chatLoop_no_warn env token sName _ _ _ t).1, ih _ _ _ t⟩
    · have hr' : env.registered sName = false := by
        revert hr; cases env.registered sName <;> simp
      simp only [serviceLoop, hr', Bool.false_eq_true, if_false, ite_false]
      exact ih _ _ _ t

lemma serviceLoop_promote (env : Env) (token : String)
    (services : List String) :
    ∀ (ctx : Context) (h0 : Bool), ctx.Chat.ID ≠ 0 →
      (serviceLoop env token ctx [] services h0).events =
        (serviceLoop env token ctx [ctx.Chat.ID] services h0).events ∧
      (serviceLoop env token ctx [] services h0).flood =
        (serviceLoop env token ctx [ctx.Chat.ID] services h0).flood ∧
      (serviceLoop env token ctx [] services h0).isHandled =
        (serviceLoop env token ctx [ctx.Chat.ID] services h0).isHandled := by
  induction services with
  | nil => intro ctx h0 _; simp [serviceLoop]
  | cons sName rest ih =>
    intro ctx h0 hid
    by_cases hr : env.registered sName = true
    · simp only [serviceLoop, hr, if_true]
      simp [hid]
    · have hr' : env.registered sName = false := by
        revert hr; cases env.registered sName <;> simp
      simp only [serviceLoop, hr', Bool.false_eq_true, if_false, ite_false]
      exact ih ctx h0 hid

lemma serviceLoop_empty_zero (env : Env) (token : String)
    (services : List String) :
    ∀ (ctx : Context) (h0 : Bool), ctx.Chat.ID = 0 →
      invokeTargets (serviceLoop env token ctx [] services h0).events = [] ∧
      loggedErrors token (serviceLoop env token ctx [] services h0).events
        = [] ∧
      (serviceLoop env token ctx [] services h0).flood = false ∧
      (serviceLoop env token ctx [] services h0).isHandled = h0 := by
  induction services with
  | nil => intro ctx h0 _; simp [serviceLoop, invokeTargets, loggedErrors]
  | cons sName rest ih =>
    intro ctx h0 hid
    by_cases hr : env.registered sName = true
    · have hcond : ¬(([] : List Int) = [] ∧ ({ ctx with ServiceName := sName } :
          Context).Chat.ID ≠ 0) := by simp [hid]
      have := ih { ctx with ServiceName := sName } h0 hid
      simp only [serviceLoop, hr, if_true, hcond, if_false, ite_false,
        ite_true, if_pos rfl]
      simp [invokeTargets, loggedErrors, hid, this.1, this.2.1, this.2.2.1,
        this.2.2.2]
    · have hr' : env.registered sName = false := by
        revert hr; cases env.registered sName <;> simp
      simp only [serviceLoop, hr', Bool.false_eq_true, if_false, ite_false]
      exact ih ctx h0 hid

lemma dispatchHooks_skip (env : Env) (token : String) (ctx : Context)
    (hooks : List serviceHook) :
    ∀ (pre : List serviceHook), (∀ h ∈ pre, h.Token ≠ token) →
      dispatchHooks env token ctx (pre ++ hooks) =
        dispatchHooks env token ctx hooks := by
  intro pre
  induction pre with
  | nil => intro _; rfl
  | cons h rest ih =>
    intro hpre
    have h1 : h.Token ≠ token := hpre h (by simp)
    have h2 : ∀ h' ∈ rest, h'.Token ≠ token := fun h' hh => hpre h' (by simp [hh])
    simp only [List.cons_append, dispatchHooks, h1, if_false, ite_false]
    exact ih h2

lemma targetsOf_nil (services : List String) : targetsOf services [] = [] := by
  induction services <;> simp [targetsOf, *]

lemma dispatch_core (env : Env) (token : String) (ctx : Context)
    (hook : serviceHook) (rest : List serviceHook) (r : RunOut)
    (hm : hook.Token = token)
    (h1 : invokeTargets
      (serviceLoop env token ctx hook.Chats hook.Services false).events =
      r.invoked)
    (h2 : loggedErrors token
      (serviceLoop env token ctx hook.Chats hook.Services false).events =
      r.logs)
    (h3 : (serviceLoop env token ctx hook.Chats hook.Services false).flood =
      r.flood)
    (h4 : (serviceLoop env token ctx hook.Chats hook.Services false).isHandled
      = r.handled) :
    invokeTargets (dispatchHooks env token ctx (hook :: rest)).events =
      r.invoked ∧
    loggedErrors token (dispatchHooks env token ctx (hook :: rest)).events =
      r.logs ∧
    (dispatchHooks env token ctx (hook :: rest)).respOf = some
      (if r.flood then Response.strBody 429 errorFloodMessage
       else Response.status 200) ∧
    (r.flood = false →
      ((Event.warnNotHandled token ∈
          (dispatchHooks env token ctx (hook :: rest)).events) ↔
        r.handled = false)) := by
  have hnw := serviceLoop_no_warnNotHandled env token hook.Services ctx
    hook.Chats false token
  by_cases hf : (serviceLoop env token ctx hook.Chats hook.Services
      false).flood = true
  · rw [hf] at h3
    simp only [dispatchHooks, hm, if_pos rfl, hf, if_true, ite_true]
    refine ⟨by simpa [HOutcome.events] using h1,
      by simpa [HOutcome.events] using h2, ?_, ?_⟩
    · simp [HOutcome.respOf, ← h3]
    · intro hrf; rw [hrf] at h3; cases h3
  · have hf' : (serviceLoop env token ctx hook.Chats hook.Services
        false).flood = false := by
      revert hf
      cases (serviceLoop env token ctx hook.Chats hook.Services false).flood <;>
        simp
    rw [hf'] at h3
    simp only [dispatchHooks, hm, if_pos rfl, hf', Bool.false_eq_true,
      if_false, ite_false]
    by_cases hh : (serviceLoop env token ctx hook.Chats hook.Services
        false).isHandled = true
    · rw [hh] at h4
      simp only [hh, if_true, ite_true, List.append_nil]
      refine ⟨by simpa [HOutcome.events] using h1,
        by simpa [HOutcome.events] using h2, by simp [HOutcome.respOf, ← h3], ?_⟩
      intro _
      simp only [HOutcome.events]
      constructor
      · intro hmem; exact absurd hmem hnw
      · intro hrh; rw [hrh] at h4; cases h4
    · have hh' : (serviceLoop env token ctx hook.Chats hook.Services
          false).isHandled = false := by
        revert hh
        cases (serviceLoop env token ctx hook.Chats hook.Services
          false).isHandled <;> simp
      rw [hh'] at h4
      simp only [hh', Bool.false_eq_true, if_false, ite_false]
      refine ⟨?_, ?_, by simp [HOutcome.respOf, ← h3], ?_⟩
      · simp only [if_true, ite_true, HOutcome.events]
        rw [invokeTargets_append]
        simpa [invokeTargets] using h1
      · simp only [if_true, ite_true, HOutcome.events]
        rw [loggedErrors_append]
        simpa [loggedErrors] using h2
      · intro _
        simp only [HOutcome.events, List.mem_append]
        simp [← h4]

lemma dispatchHooks_matched (env : Env) (token : String) (ctx : Context)
    (hook : serviceHook) (rest : List serviceHook)
    (hm : hook.Token = token)
    (hreg : ∀ s ∈ hook.Services, env.registered s = true) :
    invokeTargets (dispatchHooks env token ctx (hook :: rest)).events =
      (runDispatch env.webhookResult (hookTargets hook ctx.Chat.ID)).invoked ∧
    loggedErrors token (dispatchHooks env token ctx (hook :: rest)).events =
      (runDispatch env.webhookResult (hookTargets hook ctx.Chat.ID)).logs ∧
    (dispatchHooks env token ctx (hook :: rest)).respOf = some
      (if (runDispatch env.webhookResult (hookTargets hook ctx.Chat.ID)).flood
       then Response.strBody 429 errorFloodMessage
       else Response.status 200) ∧
    ((runDispatch env.webhookResult (hookTargets hook ctx.Chat.ID)).flood =
        false →
      ((Event.warnNotHandled token ∈
          (dispatchHooks env token ctx (hook :: rest)).events) ↔
        (runDispatch env.webhookResult
          (hookTargets hook ctx.Chat.ID)).handled = false)) := by
  by_cases hch : hook.Chats = []
  · by_cases hid : ctx.Chat.ID = 0
    · have hz := serviceLoop_empty_zero env token hook.Services ctx false hid
      have hT : hookTargets hook ctx.Chat.ID = [] := by
        simp [hookTargets, effTargetChats, hch, hid, targetsOf_nil]
      rw [hT]
      exact dispatch_core env token ctx hook rest
        (runDispatch env.webhookResult []) hm
        (by rw [hch]; exact hz.1) (by rw [hch]; exact hz.2.1)
        (by rw [hch]; exact hz.2.2.1) (by rw [hch]; exact hz.2.2.2)
    · have hp := serviceLoop_promote env token hook.Services ctx false hid
      have hrun := serviceLoop_run env token hook.Services hreg
        [ctx.Chat.ID] (by simp) ctx false
      have hT : hookTargets hook ctx.Chat.ID =
          targetsOf hook.Services [ctx.Chat.ID] := by
        simp [hookTargets, effTargetChats, hch, hid]
      rw [hT]
      exact dispatch_core env token ctx hook rest
        (runDispatch env.webhookResult (targetsOf hook.Services [ctx.Chat.ID]))
        hm
        (by rw [hch, hp.1]; exact hrun.1)
        (by rw [hch, hp.1]; exact hrun.2.1)
        (by rw [hch, hp.2.1]; exact hrun.2.2.1)
        (by rw [hch, hp.2.2]; simpa using hrun.2.2.2)
  · have hrun := serviceLoop_run env token hook.Services hreg hook.Chats hch
      ctx false
    have hT : hookTargets hook ctx.Chat.ID =
        targetsOf hook.Services hook.Chats := by
      simp [hookTargets, effTargetChats, hch]
    rw [hT]
    exact dispatch_core env token ctx hook rest
      (runDispatch env.webhookResult (targetsOf hook.Services hook.Chats)) hm
      hrun.1 hrun.2.1 hrun.2.2.1 (by simpa using hrun.2.2.2)

lemma runDispatch_noflood (res : String → Int → Option Err) :
    ∀ (T : List (String × Int)),
      (∀ t ∈ T, res t.1 t.2 ≠ some Err.flood) →
      (runDispatch res T).invoked = T ∧ (runDispatch res T).flood = false := by
  intro T
  induction T with
  | nil => intro _; simp [runDispatch]
  | cons t rest ih =>
    intro hnf
    obtain ⟨s, c⟩ := t
    have h1 : res s c ≠ some Err.flood := hnf (s, c) (by simp)
    have h2 := ih (fun t ht => hnf t (by simp [ht]))
    cases hres : res s c with
    | none => simp [runDispatch, hres, h2.1, h2.2]
    | some e =>
      cases e with
      | flood => exact absurd hres h1
      | other m => simp [runDispatch, hres, h2.1, h2.2]

lemma runDispatch_flood_cut (res : String → Int → Option Err)
    (tf : String × Int) (post : List (String × Int))
    (hf : res tf.1 tf.2 = some Err.flood) :
    ∀ (pre : List (String × Int)),
      (∀ t ∈ pre, res t.1 t.2 ≠ some Err.flood) →
      (runDispatch res (pre ++ tf :: post)).invoked = pre ++ [tf] ∧
      (runDispatch res (pre ++ tf :: post)).flood = true := by
  intro pre
  induction pre with
  | nil =>
    intro _
    obtain ⟨s, c⟩ := tf
    simp [runDispatch, hf]
  | cons t rest ih =>
    intro hpre
    obtain ⟨s, c⟩ := t
    have h1 : res s c ≠ some Err.flood := hpre (s, c) (by simp)
    have h2 := ih (fun t ht => hpre t (by simp [ht]))
    cases hres : res s c with
    | none => simp [runDispatch, hres, h2.1, h2.2]
    | some e =>
      cases e with
      | flood => exact absurd hres h1
      | other m => simp [runDispatch, hres, h2.1, h2.2]

lemma runDispatch_handled_false (res : String → Int → Option Err) :
    ∀ (T : List (String × Int)), (∀ t ∈ T, res t.1 t.2 ≠ none) →
      (runDispatch res T).handled = false := by
  intro T
  induction T with
  | nil => intro _; simp [runDispatch]
  | cons t rest ih =>
    intro hno
    obtain ⟨s, c⟩ := t
    have h1 : res s c ≠ none := hno (s, c) (by simp)
    have h2 := ih (fun t ht => hno t (by simp [ht]))
    cases hres : res s c with
    | none => exact absurd hres h1
    | some e => cases e <;> simp [runDispatch, hres, h2]

lemma runDispatch_handled_true (res : String → Int → Option Err) :
    ∀ (T : List (String × Int)),
      (∀ t ∈ T, res t.1 t.2 = none) → T ≠ [] →
      (runDispatch res T).handled = true := by
  intro T
  induction T with
  | nil => intro _ h; exact absurd rfl h
  | cons t rest ih =>
    intro hok _
    obtain ⟨s, c⟩ := t
    have h1 : res s c = none := hok (s, c) (by simp)
    simp [runDispatch, h1]

lemma runDispatch_logs_mem (res : String → Int → Option Err) :
    ∀ (T : List (String × Int)),
      (∀ t ∈ T, res t.1 t.2 ≠ some Err.flood) →
      ∀ t ∈ T, ∀ e, res t.1 t.2 = some e → e ∈ (runDispatch res T).logs := by
  intro T
  induction T with
  | nil => intro _ t ht; simp at ht
  | cons t0 rest ih =>
    intro hnf t ht e hres
    obtain ⟨s0, c0⟩ := t0
    have h1 : res s0 c0 ≠ some Err.flood := hnf (s0, c0) (by simp)
    have h2 := ih (fun t' ht' => hnf t' (by simp [ht']))
    rcases List.mem_cons.mp ht with hEq | hmem
    · subst hEq
      cases e with
      | flood => exact absurd hres h1
      | other m => simp [runDispatch, hres]
    · cases hres0 : res s0 c0 with
      | none => simp [runDispatch, hres0]; exact h2 t hmem e hres
      | some e0 =>
        cases e0 with
        | flood => exact absurd hres0 h1
        | other m =>
          simp [runDispatch, hres0]
          exact Or.inr (h2 t hmem e hres)

lemma chatLoop_refs_zero (env : Env) (token sName : String)
    (chats : List Int) :
    ∀ (ctx : Context) (h0 : Bool),
      ∀ r ∈ invokeRefs (chatLoop env token sName ctx chats h0).events,
        r = 0 := by
  induction chats with
  | nil => intro ctx h0 r hr; simp [chatLoop, invokeRefs] at hr
  | cons c rest ih =>
    intro ctx h0 r hr
    cases hres : env.webhookResult sName c with
    | none =>
      simp [chatLoop, hres, invokeRefs] at hr
      rcases hr with hr | hr
      · exact hr
      · exact ih _ _ r hr
    | some e =>
      cases e with
      | flood => simp [chatLoop, hres, invokeRefs] at hr; exact hr
      | other m =>
        simp [chatLoop, hres, invokeRefs] at hr
        rcases hr with hr | hr
        · exact hr
        · exact ih _ _ r hr

lemma serviceLoop_refs_zero (env : Env) (token : String)
    (services : List String) :
    ∀ (ctx : Context) (hc : List Int) (h0 : Bool),
      ∀ r ∈ invokeRefs (serviceLoop env token ctx hc services h0).events,
        r = 0 := by
  induction services with
  | nil => intro ctx hc h0 r hr; simp [serviceLoop, invokeRefs] at hr
  | cons sName rest ih =>
    intro ctx hc h0 r hr
    by_cases hreg : env.registered sName = true
    · simp only [serviceLoop, hreg, if_true, ite_true] at hr
      split at hr <;>
      · split at hr
        · simp [invokeRefs] at hr
          exact ih _ _ _ r hr
        · split at hr
          · exact chatLoop_refs_zero env token sName _ _ _ r hr
          · rw [invokeRefs_append] at hr
            rcases List.mem_append.mp hr with hr | hr
            · exact chatLoop_refs_zero env token sName _ _ _ r hr
            · exact ih _ _ _ r hr
    · have hreg' : env.registered sName = false := by
        revert hreg; cases env.registered sName <;> simp
      simp only [serviceLoop, hreg', Bool.false_eq_true, if_false,
        ite_false] at hr
      exact ih _ _ _ r hr

lemma dispatchHooks_refs_zero (env : Env) (token : String) (ctx : Context) :
    ∀ (hooks : List serviceHook),
      ∀ r ∈ invokeRefs (dispatchHooks env token ctx hooks).events, r = 0 := by
  intro hooks
  induction hooks with
  | nil => intro r hr; simp [dispatchHooks, HOutcome.events, invokeRefs] at hr
  | cons hook rest ih =>
    intro r hr
    by_cases hm : hook.Token = token
    · simp only [dispatchHooks, hm, if_pos rfl, ite_true] at hr
      split at hr
      · exact serviceLoop_refs_zero env token hook.Services ctx hook.Chats
          false r hr
      · simp only [HOutcome.events] at hr
        rw [invokeRefs_append] at hr
        rcases List.mem_append.mp hr with hr | hr
        · exact serviceLoop_refs_zero env token hook.Services ctx hook.Chats
            false r hr
        · rcases hh : (serviceLoop env token ctx hook.Chats hook.Services
              false).isHandled <;> simp [hh, invokeRefs] at hr
    · simp only [dispatchHooks, hm, if_false, ite_false] at hr
      exact ih r hr

lemma autoChatLoop_refs (env : Env) (token sName : String) (ctx : Context) :
    ∀ (chats : List chatData) (ref : Nat),
      ∃ n, invokeRefs (autoChatLoop env token sName ctx chats ref).1 =
        List.range' ref n := by
  intro chats
  induction chats with
  | nil => intro ref; exact ⟨0, by simp [autoChatLoop, invokeRefs]⟩
  | cons chat rest ih =>
    intro ref
    cases hres : env.webhookResult sName chat.Chat.ID with
    | none =>
      obtain ⟨n, hn⟩ := ih (ref + 1)
      exact ⟨n + 1, by simp [autoChatLoop, hres, invokeRefs, hn,
        List.range'_succ]⟩
    | some e =>
      cases e with
      | flood =>
        exact ⟨1, by simp [autoChatLoop, hres, invokeRefs]⟩
      | other m =>
        obtain ⟨n, hn⟩ := ih (ref + 1)
        exact ⟨n + 1, by simp [autoChatLoop, hres, invokeRefs, hn,
          List.range'_succ]⟩

lemma autoUserLoop_refs (env : Env) (token sName : String) (ctx : Context) :
    ∀ (users : List userData) (ref : Nat),
      ∃ n, invokeRefs (autoUserLoop env token sName ctx users ref).1 =
        List.range' ref n := by
  intro users
  induction users with
  | nil => intro ref; exact ⟨0, by simp [autoUserLoop, invokeRefs]⟩
  | cons user rest ih =>
    intro ref
    cases hres : env.webhookResult sName user.ID with
    | none =>
      obtain ⟨n, hn⟩ := ih (ref + 1)
      exact ⟨n + 1, by simp [autoUserLoop, hres, invokeRefs, hn,
        List.range'_succ]⟩
    | some e =>
      cases e with
      | flood =>
        exact ⟨1, by simp [autoUserLoop, hres, invokeRefs]⟩
      | other m =>
        obtain ⟨n, hn⟩ := ih (ref + 1)
        exact ⟨n + 1, by simp [autoUserLoop, hres, invokeRefs, hn,
          List.range'_succ]⟩

lemma autoDetect_refs_nodup (env : Env) (token service : String)
    (ctx : Context) :
    (invokeRefs (autoDetect env token service ctx).events).Nodup := by
  have hlog1 : invokeRefs (match env.tokenHandlerResult.2.2 with
      | some m => [Event.logTokenHandlerError token m]
      | none => []) = [] := by
    cases env.tokenHandlerResult.2.2 <;> simp [invokeRefs]
  have hlog2 : invokeRefs (match env.findChatsResult.2 with
      | some m => [Event.logFindChatsError token m]
      | none => []) = [] := by
    cases env.findChatsResult.2 <;> simp [invokeRefs]
  have hlog3 : invokeRefs (match env.findUsersResult.2 with
      | some m => [Event.logFindUsersError token m]
      | none => []) = [] := by
    cases env.findUsersResult.2 <;> simp [invokeRefs]
  by_cases hreg : env.registered service = true
  · simp only [autoDetect, hreg, if_true, ite_true]
    by_cases htd : env.tokenHandlerDefined = true
    · simp only [htd, if_true, ite_true]
      cases hq : env.tokenHandlerResult.2.1 with
      | none =>
        cases env.tokenHandlerResult.2.2 <;>
          simp [HOutcome.events, invokeRefs]
      | some q =>
        by_cases hqc : env.tokenHandlerResult.1 = true
        · obtain ⟨n, hn⟩ := autoChatLoop_refs env token service
            { ctx with ServiceName := service } env.findChatsResult.1 1
          simp only [hqc, ite_true]
          split <;>
          · simp [HOutcome.events, invokeRefs_append, hlog1, hlog2, hn]
            exact List.nodup_range' _ _ _ Nat.one_pos
        · have hqc' : env.tokenHandlerResult.1 = false := by
            revert hqc; cases env.tokenHandlerResult.1 <;> simp
          obtain ⟨n, hn⟩ := autoUserLoop_refs env token service
            { ctx with ServiceName := service } env.findUsersResult.1 1
          simp only [hqc', Bool.false_eq_true, ite_false]
          split <;>
          · simp [HOutcome.events, invokeRefs_append, hlog1, hlog3, hn]
            exact List.nodup_range' _ _ _ Nat.one_pos
    · have htd' : env.tokenHandlerDefined = false := by
        revert htd; cases env.tokenHandlerDefined <;> simp
      simp [autoDetect, hreg, htd', HOutcome.events, invokeRefs]
  · have hreg' : env.registered service = false := by
      revert hreg; cases env.registered service <;> simp
    simp [autoDetect, hreg', HOutcome.events, invokeRefs]

lemma narrowUserHooks_user (token : String) :
    ∀ (hooks : List serviceHook) (ctx : Context) (user : userData),
      (narrowUserHooks token hooks ctx user).2.User = user.User := by
  intro hooks
  induction hooks with
  | nil => intro ctx user; rfl
  | cons hook rest ih =>
    intro ctx user
    by_cases hm : hook.Token = token
    · simp [narrowUserHooks, hm]
    · simp only [narrowUserHooks, hm, if_false, ite_false]
      exact ih ctx user

lemma narrowUserHooks_filter (token : String) (h : serviceHook)
    (hm : h.Token = token) :
    ∀ (pre : List serviceHook), (∀ h' ∈ pre, h'.Token ≠ token) →
    ∀ (post : List serviceHook) (ctx : Context) (user : userData),
      (narrowUserHooks token (pre ++ h :: post) ctx user).2.Hooks = [h] ∧
      (∀ kv ∈ (narrowUserHooks token (pre ++ h :: post) ctx user).2.Protected,
        kv.1 ∈ h.Services) ∧
      (∀ kv ∈ (narrowUserHooks token (pre ++ h :: post) ctx user).2.Settings,
        kv.1 ∈ h.Services) := by
  intro pre
  induction pre with
  | nil =>
    intro _ post ctx user
    refine ⟨by simp [narrowUserHooks, hm], ?_, ?_⟩
    · intro kv hkv
      simp only [List.nil_append, narrowUserHooks, hm, if_pos rfl,
        ite_true] at hkv
      exact sliceContains_mem (List.mem_filter.mp hkv).2
    · intro kv hkv
      simp only [List.nil_append, narrowUserHooks, hm, if_pos rfl,
        ite_true] at hkv
      exact sliceContains_mem (List.mem_filter.mp hkv).2
  | cons h0 rest ih =>
    intro hpre post ctx user
    have h1 : h0.Token ≠ token := hpre h0 (by simp)
    have h2 : ∀ h' ∈ rest, h'.Token ≠ token :=
      fun h' hh => hpre h' (by simp [hh])
    simp only [List.cons_append, narrowUserHooks, h1, if_false, ite_false]
    exact ih h2 post ctx user

/-- Claim C1: for a user-addressed webhook request whose token resolves a
user owning a matching hook `h`, the Scoped Secret Filter (lines 366-386)
leaves in `user.Protected` and `user.Settings` only keys named by
`h.Services`, narrows `user.Hooks` to `[h]`, and the handler then proceeds
into the dispatch loop with exactly that filtered user — so the filter runs
before any `WebhookHandler` invocation. -/
theorem c1_scoped_secret_filter (env : Env) (token : String)
    (user : userData) (pre : List serviceHook) (h : serviceHook)
    (post : List serviceHook)
    (htok : tokenStart token = "u")
    (hfind : env.findUser = (user, none))
    (hid : user.User.ID > 0)
    (hhooks : user.Hooks = pre ++ h :: post)
    (hpre : ∀ h' ∈ pre, h'.Token ≠ token)
    (hm : h.Token = token) :
    (∀ kv ∈ (narrowUserHooks token user.Hooks (initialContext "")
        user).2.Protected, kv.1 ∈ h.Services) ∧
    (∀ kv ∈ (narrowUserHooks token user.Hooks (initialContext "")
        user).2.Settings, kv.1 ∈ h.Services) ∧
    (narrowUserHooks token user.Hooks (initialContext "") user).2.Hooks
      = [h] ∧
    serviceHookHandler env token "" =
      dispatchHooks env token
        { (narrowUserHooks token user.Hooks (initialContext "") user).1 with
          User := (narrowUserHooks token user.Hooks (initialContext "")
            user).2.User }
        (narrowUserHooks token user.Hooks (initialContext "") user).2.Hooks
    := by
  have hnf := narrowUserHooks_filter token h hm pre hpre post
    (initialContext "") user
  have hne : token ≠ "" := by
    intro he
    rw [he] at htok
    exact absurd htok (by decide)
  refine ⟨?_, ?_, ?_, ?_⟩
  · rw [hhooks]; exact hnf.2.1
  · rw [hhooks]; exact hnf.2.2
  · rw [hhooks]; exact hnf.1
  · have hU := narrowUserHooks_user token user.Hooks (initialContext "") user
    simp only [serviceHookHandler, hfind]
    rw [if_neg (by simp), if_neg hne, if_pos htok,
      if_pos ⟨trivial, by rw [userData.ID, hU]; exact hid⟩]

/-- Claim C2: in the token-addressed dispatch loop over a matched hook with
all services registered, if some planned target returns the flood sentinel
(and no earlier target does), the loop invokes exactly the targets up to and
including that one — none of the later targets — and the HTTP response is
429; and the flood sentinel is the only short-circuiting error: when no
planned target returns it, every planned target is invoked. -/
theorem c2_flood_short_circuit (env : Env) (token : String) (ctx : Context)
    (hook : serviceHook) (rest : List serviceHook)
    (hm : hook.Token = token)
    (hreg : ∀ s ∈ hook.Services, env.registered s = true) :
    (∀ (pre : List (String × Int)) (tf : String × Int)
        (post : List (String × Int)),
      hookTargets hook ctx.Chat.ID = pre ++ tf :: post →
      (∀ t ∈ pre, env.webhookResult t.1 t.2 ≠ some Err.flood) →
      env.webhookResult tf.1 tf.2 = some Err.flood →
      invokeTargets (dispatchHooks env token ctx (hook :: rest)).events =
        pre ++ [tf] ∧
      (dispatchHooks env token ctx (hook :: rest)).respOf =
        some (Response.strBody 429 errorFloodMessage)) ∧
    ((∀ t ∈ hookTargets hook ctx.Chat.ID,
        env.webhookResult t.1 t.2 ≠ some Err.flood) →
      invokeTargets (dispatchHooks env token ctx (hook :: rest)).events =
        hookTargets hook ctx.Chat.ID) := by
  have hmain := dispatchHooks_matched env token ctx hook rest hm hreg
  constructor
  · intro pre tf post hT hpre hf
    have hcut := runDispatch_flood_cut env.webhookResult tf post hf pre hpre
    rw [hT] at hmain
    refine ⟨by rw [hmain.1, hcut.1], ?_⟩
    rw [hmain.2.2.1, hcut.2]
    simp
  · intro hnf
    have hno := runDispatch_noflood env.webhookResult
      (hookTargets hook ctx.Chat.ID) hnf
    rw [hmain.1, hno.1]

/-- Claim C3: in the token-addressed dispatch loop over a matched hook with
all services registered and no flood error, the loop runs to completion over
every planned target, every non-flood handler error is logged with the
token, the HTTP response is 200 even when nothing succeeded, and in the
zero-success case a "Hook not handled" warning is logged. -/
theorem c3_partial_failure_tolerance (env : Env) (token : String)
    (ctx : Context) (hook : serviceHook) (rest : List serviceHook)
    (hm : hook.Token = token)
    (hreg : ∀ s ∈ hook.Services, env.registered s = true)
    (hnf : ∀ t ∈ hookTargets hook ctx.Chat.ID,
      env.webhookResult t.1 t.2 ≠ some Err.flood) :
    invokeTargets (dispatchHooks env token ctx (hook :: rest)).events =
      hookTargets hook ctx.Chat.ID ∧
    (dispatchHooks env token ctx (hook :: rest)).respOf =
      some (Response.status 200) ∧
    (∀ t ∈ hookTargets hook ctx.Chat.ID, ∀ m,
      env.webhookResult t.1 t.2 = some (Err.other m) →
      Event.logWebhookError token (Err.other m) ∈
        (dispatchHooks env token ctx (hook :: rest)).events) ∧
    ((∀ t ∈ hookTargets hook ctx.Chat.ID,
        env.webhookResult t.1 t.2 ≠ none) →
      Event.warnNotHandled token ∈
        (dispatchHooks env token ctx (hook :: rest)).events) := by
  have hmain := dispatchHooks_matched env token ctx hook rest hm hreg
  have hno := runDispatch_noflood env.webhookResult
    (hookTargets hook ctx.Chat.ID) hnf
  refine ⟨by rw [hmain.1, hno.1], ?_, ?_, ?_⟩
  · rw [hmain.2.2.1, hno.2]; simp
  · intro t ht m hres
    have hlog := runDispatch_logs_mem env.webhookResult
      (hookTargets hook ctx.Chat.ID) hnf t ht (Err.other m) hres
    rw [← hmain.2.1] at hlog
    exact mem_of_mem_loggedErrors hlog
  · intro hall
    have hh := runDispatch_handled_false env.webhookResult
      (hookTargets hook ctx.Chat.ID) hall
    exact (hmain.2.2.2 hno.2).mpr hh

/-- Claim C4: in the token-addressed dispatch loop over a matched hook with
all services registered and no handler errors, `WebhookHandler` is invoked
exactly once per (service, chat) pair, services outermost in stored order and
chats innermost in stored order; the target chat set is `hook.Chats` when
non-empty, else the single chat already resolved from the token lookup (the
context chat id, when non-zero). -/
theorem c4_fanout_order (env : Env) (token : String) (ctx : Context)
    (hook : serviceHook) (rest : List serviceHook)
    (hm : hook.Token = token)
    (hreg : ∀ s ∈ hook.Services, env.registered s = true)
    (hok : ∀ t ∈ hookTargets hook ctx.Chat.ID,
      env.webhookResult t.1 t.2 = none) :
    invokeTargets (dispatchHooks env token ctx (hook :: rest)).events =
      targetsOf hook.Services (effTargetChats hook.Chats ctx.Chat.ID) := by
  have hmain := dispatchHooks_matched env token ctx hook rest hm hreg
  have hno := runDispatch_noflood env.webhookResult
    (hookTargets hook ctx.Chat.ID)
    (fun t ht => by rw [hok t ht]; exact fun hc => Option.noConfusion hc)
  rw [hmain.1, hno.1]
  rfl

/-- Claim C1, witnessed: resolving token `utok` for `user42` (settings and
credentials for trello and gmail, matched hook scoped to trello) leaves only
trello-keyed entries and hands the dispatch loop the narrowed hook list. -/
theorem c1_scoped_secret_filter_witness :
    (∀ kv ∈ (narrowUserHooks "utok" user42.Hooks (initialContext "")
        user42).2.Protected, kv.1 ∈ uhook.Services) ∧
    (∀ kv ∈ (narrowUserHooks "utok" user42.Hooks (initialContext "")
        user42).2.Settings, kv.1 ∈ uhook.Services) ∧
    (narrowUserHooks "utok" user42.Hooks (initialContext "") user42).2.Hooks
      = [uhook] ∧
    serviceHookHandler envC1 "utok" "" =
      dispatchHooks envC1 "utok"
        { (narrowUserHooks "utok" user42.Hooks (initialContext "")
            user42).1 with
          User := (narrowUserHooks "utok" user42.Hooks (initialContext "")
            user42).2.User }
        (narrowUserHooks "utok" user42.Hooks (initialContext "")
          user42).2.Hooks :=
  c1_scoped_secret_filter envC1 "utok" user42 [] uhook [] (by decide) rfl
    (by decide) rfl (by simp) rfl

/-- Claim C2, witnessed: with the handler flooding at `(a, 20)`, dispatch
over `cfhook` invokes exactly `(a,10), (a,20)` — never `(b,10)` or `(b,20)`
— and answers 429. -/
theorem c2_flood_short_circuit_witness :
    invokeTargets (dispatchHooks envFld "ct" ctxC [cfhook]).events =
      [("a", 10), ("a", 20)] ∧
    (dispatchHooks envFld "ct" ctxC [cfhook]).respOf =
      some (Response.strBody 429 errorFloodMessage) :=
  (c2_flood_short_circuit envFld "ct" ctxC cfhook [] rfl (by decide)).1
    [("a", 10)] ("a", 20) [("b", 10), ("b", 20)] (by decide) (by decide)
    (by decide)

/-- Claim C3, witnessed: with every target failing with a non-flood error,
dispatch over `cfhook` still answers 200, logs the error, and logs the
not-handled warning. -/
theorem c3_partial_failure_tolerance_witness :
    (dispatchHooks envErr "ct" ctxC [cfhook]).respOf =
      some (Response.status 200) ∧
    Event.logWebhookError "ct" (Err.other "boom") ∈
      (dispatchHooks envErr "ct" ctxC [cfhook]).events ∧
    Event.warnNotHandled "ct" ∈
      (dispatchHooks envErr "ct" ctxC [cfhook]).events := by
  have h := c3_partial_failure_tolerance envErr "ct" ctxC cfhook [] rfl
    (by decide) (by decide)
  exact ⟨h.2.1, h.2.2.1 ("a", 10) (by decide) "boom" (by decide),
    h.2.2.2 (by decide)⟩

/-- Claim C4, witnessed: dispatch over `cfhook` (chats `[10, 20]`) invokes
`(a,10),(a,20),(b,10),(b,20)` in that order, and over `cehook` (no chats,
resolved chat 5) invokes `(a,5),(b,5)`. -/
theorem c4_fanout_order_witness :
    invokeTargets (dispatchHooks env0 "ct" ctxC [cfhook]).events =
      [("a", 10), ("a", 20), ("b", 10), ("b", 20)] ∧
    invokeTargets (dispatchHooks env0 "ct" ctxC [cehook]).events =
      [("a", 5), ("b", 5)] := by
  constructor
  · exact (c4_fanout_order env0 "ct" ctxC cfhook [] rfl (by decide)
      (by decide)).trans (by decide)
  · exact (c4_fanout_order env0 "ct" ctxC cehook [] rfl (by decide)
      (by decide)).trans (by decide)

/-- Claim C5 counterexample: in the token-addressed dispatch loop the source
passes the SAME `ctx` pointer to `WebhookHandler` for every target (lines
440-441 mutate `ctx.Chat` in place); running the handler over a chat hook
with two target chats yields two invocations carrying the same context
reference, refuting "the context passed to one target is never the same
in-place-mutated object seen by the next target". -/
theorem c5_counterexample :
    ¬ (invokeRefs (serviceHookHandler envC5 "ct" "").events).Nodup := by
  decide

/-- Claim C5 amended: a cloned context per fan-out target exists only in
auto-detect mode (lines 322-359, `ctxCopy := *ctx`), where every invocation
carries a distinct fresh context reference; in the token-addressed dispatch
loop (lines 427-459) every invocation carries reference 0 — the single
resolved context object, mutated in place between targets. -/
theorem c5_context_cloning_amended :
    (∀ (env : Env) (token : String) (ctx : Context)
        (hooks : List serviceHook),
      ∀ r ∈ invokeRefs (dispatchHooks env token ctx hooks).events, r = 0) ∧
    (∀ (env : Env) (token service : String) (ctx : Context),
      (invokeRefs (autoDetect env token service ctx).events).Nodup) :=
  ⟨fun env token ctx hooks => dispatchHooks_refs_zero env token ctx hooks,
   fun env token service ctx => autoDetect_refs_nodup env token service ctx⟩

/-- Claim C5 amended, witnessed on concrete runs: the token-addressed
dispatch over `cfhook` reuses reference 0 for both targets, and an
auto-detect run over two chats uses pairwise distinct references. -/
theorem c5_context_cloning_amended_witness :
    (∀ r ∈ invokeRefs (dispatchHooks envC5 "ct" ctxC [cfhook]).events,
      r = 0) ∧
    (invokeRefs (autoDetect envAuto "" "svc"
      (initialContext "svc")).events).Nodup :=
  ⟨fun r hr => c5_context_cloning_amended.1 envC5 "ct" ctxC [cfhook] r hr,
   c5_context_cloning_amended.2 envAuto "" "svc" (initialContext "svc")⟩

/-- Claim C6: for a user- or chat-addressed token whose lookup fails (no
user with id > 0, or no chat with non-zero id), the handler writes the raw
request payload to a file named by the token and the current timestamp, logs
the unknown-token error, and returns with no body and no status code. -/
theorem c6_unknown_token_dump (env : Env) (token service : String)
    (hna : ¬(service ≠ "" ∧ (token = "service" ∨ token = ""))) :
    (tokenStart token = "u" →
      ¬(env.findUser.2 = none ∧ env.findUser.1.ID > 0) →
      serviceHookHandler env token service = HOutcome.normal Response.silent
        [Event.writeRawFile (rawFileName token env.now) env.requestBody,
         Event.logUnknownUserToken token]) ∧
    (tokenStart token ≠ "u" →
      (tokenStart token = "c" ∨ tokenStart token = "h") →
      ¬(env.findChat.2 = none ∧ env.findChat.1.ID ≠ 0) →
      serviceHookHandler env token service = HOutcome.normal Response.silent
        [Event.writeRawFile (rawFileName token env.now) env.requestBody,
         Event.logUnknownChatToken token]) := by
  constructor
  · intro htok hfail
    have hne : token ≠ "" := by
      intro he
      rw [he] at htok
      exact absurd htok (by decide)
    have hU := narrowUserHooks_user token env.findUser.1.Hooks
      (initialContext service) env.findUser.1
    have hcond : ¬(env.findUser.2 = none ∧
        (narrowUserHooks token env.findUser.1.Hooks (initialContext service)
          env.findUser.1).2.ID > 0) := by
      intro hc
      refine hfail ⟨hc.1, ?_⟩
      have := hc.2
      rw [userData.ID, hU] at this
      exact this
    simp only [serviceHookHandler]
    rw [if_neg hna, if_neg hne, if_pos htok, if_neg hcond]
  · intro hu hch hfail
    have hne : token ≠ "" := by
      intro he
      rw [he] at hch
      rcases hch with hc | hc <;> exact absurd hc (by decide)
    simp only [serviceHookHandler]
    rw [if_neg hna, if_neg hne, if_neg hu, if_pos hch, if_neg hfail]

/-- Claim C6, witnessed: delivering to the unknown user token `utok` and to
the unknown chat token `ctok` each dumps the payload to the token/timestamp
file, logs, and returns silently. -/
theorem c6_unknown_token_dump_witness :
    serviceHookHandler env0 "utok" "" = HOutcome.normal Response.silent
      [Event.writeRawFile (rawFileName "utok" env0.now) env0.requestBody,
       Event.logUnknownUserToken "utok"] ∧
    serviceHookHandler env0 "ctok" "" = HOutcome.normal Response.silent
      [Event.writeRawFile (rawFileName "ctok" env0.now) env0.requestBody,
       Event.logUnknownChatToken "ctok"] :=
  ⟨(c6_unknown_token_dump env0 "utok" "" (by simp)).1 (by decide) (by decide),
   (c6_unknown_token_dump env0 "ctok" "" (by simp)).2 (by decide) (by decide)
     (by decide)⟩

/-- Claim C7 counterexample: outside auto-detect mode the handler evaluates
`token[0:1]`, which on the empty token is a Go slice-bounds panic — the run
faults instead of responding 404, refuting "token inspection is total and
never faults on the empty token". -/
theorem c7_counterexample :
    serviceHookHandler env0 "" "" = HOutcome.panic [] ∧
    (serviceHookHandler env0 "" "").statusOf ≠ some 404 := by
  decide

/-- Claim C7 amended: outside auto-detect mode a NON-EMPTY token whose first
character is none of u, c, h gets a 404 with no side effects; the empty
token outside auto-detect makes `token[0:1]` fault (slice-bounds panic)
rather than producing a 404. -/
theorem c7_unroutable_token_amended (env : Env) (token service : String)
    (hna : ¬(service ≠ "" ∧ (token = "service" ∨ token = ""))) :
    (token ≠ "" → tokenStart token ≠ "u" → tokenStart token ≠ "c" →
      tokenStart token ≠ "h" →
      serviceHookHandler env token service =
        HOutcome.normal (Response.status 404) []) ∧
    (token = "" →
      serviceHookHandler env token service = HOutcome.panic []) := by
  constructor
  · intro hne hu hc hh
    simp only [serviceHookHandler]
    rw [if_neg hna, if_neg hne, if_neg hu, if_neg (by simp [hc, hh])]
  · intro he
    simp only [serviceHookHandler]
    rw [if_neg hna, if_pos he]

/-- Claim C7 amended, witnessed: the token `xtok` gets 404 and the empty
token panics. -/
theorem c7_unroutable_token_amended_witness :
    serviceHookHandler env0 "xtok" "" =
      HOutcome.normal (Response.status 404) [] ∧
    serviceHookHandler env0 "" "" = HOutcome.panic [] :=
  ⟨(c7_unroutable_token_amended env0 "xtok" "" (by simp)).1 (by decide)
      (by decide) (by decide) (by decide),
   (c7_unroutable_token_amended env0 "" "" (by simp)).2 rfl⟩

/-- Claim C8 counterexample: when the credential exchange yields an empty
access token together with a nil error (here: a service-supplied OAuth2
receiver returning `("", nil)`), line 598's `c.String(403, err.Error())`
dereferences the nil error and panics — the flow does NOT respond 403,
refuting the claim as stated (no credentials are persisted either way). -/
theorem c8_counterexample :
    oAuthCallback oenvC8 = OOutcome.panic [OEvent.logVerifyError] ∧
    (oAuthCallback oenvC8).statusOf ≠ some 403 := by
  decide

/-- Claim C8 amended: when the credential exchange yields an empty access
token, no protected-settings save is ever attempted; if the exchange also
returned a non-nil error the flow responds 403 with that error text, but if
the error is nil the handler panics on `err.Error()` instead of responding
403. -/
theorem c8_empty_token_amended (env : OEnv) (refreshToken : String)
    (expiresAt : Option Int) (err : Option String) :
    (∀ ps r, OEvent.saveProtectedSettings ps r ∉
      (oAuthFinish env "" refreshToken expiresAt err).events) ∧
    (∀ m, err = some m → oAuthFinish env "" refreshToken expiresAt err =
      OOutcome.normal (Response.strBody 403 m) [OEvent.logVerifyError]) ∧
    (err = none → oAuthFinish env "" refreshToken expiresAt err =
      OOutcome.panic [OEvent.logVerifyError]) := by
  cases err with
  | none =>
    refine ⟨?_, ?_, ?_⟩ <;> simp [oAuthFinish, OOutcome.events]
  | some m =>
    refine ⟨?_, ?_, ?_⟩ <;> simp [oAuthFinish, OOutcome.events]

/-- Claim C8 amended, witnessed: an empty token with error text `bad` gets
403 with body `bad` and no save attempt. -/
theorem c8_empty_token_amended_witness :
    (∀ ps r, OEvent.saveProtectedSettings ps r ∉
      (oAuthFinish oenvBase "" "" none (some "bad")).events) ∧
    oAuthFinish oenvBase "" "" none (some "bad") =
      OOutcome.normal (Response.strBody 403 "bad") [OEvent.logVerifyError] :=
  ⟨(c8_empty_token_amended oenvBase "" none (some "bad")).1,
   (c8_empty_token_amended oenvBase "" none (some "bad")).2.1 "bad" rfl⟩

/-- Claim C9: when the service has an `EventHandler` configured and the
store query is nil, `TriggerEventHandler` returns nil immediately with no
store session, no store lookup and no `EventHandler` invocation. -/
theorem c9_nil_query_no_effects (s : Service) (env : TEnv) (queryChat : Bool)
    (data : String) (h : s.hasEventHandler = true) :
    s.TriggerEventHandler env queryChat none data = (none, []) := by
  simp [Service.TriggerEventHandler, h]

/-- Claim C9, witnessed on a concrete service and environment. -/
theorem c9_nil_query_no_effects_witness :
    svcT.TriggerEventHandler tenv0 true none "d" = (none, []) :=
  c9_nil_query_no_effects svcT tenv0 true "d" rfl

lemma savedBundle_OAuthToken (env : OEnv) (accessToken refreshToken : String)
    (expiresAt : Option Int) :
    (savedBundle env accessToken refreshToken expiresAt).OAuthToken =
      accessToken := by
  by_cases hr : refreshToken = "" <;> cases expiresAt <;>
    simp [savedBundle, hr]

/-- Claim C10: once the exchange produced a non-empty access token, a
protected-settings save failure is only logged: the save of the credential
bundle (carrying the new access token) is attempted, the failure is logged,
the service's `OAuthSuccessful` job is still scheduled exactly when
configured, and the response is still the 302 redirect to the bot's
conversation deep link.  Every exchange path of `oAuthCallback` reaches this
code through `oAuthFinish`. -/
theorem c10_save_failure_only_logged (env : OEnv)
    (accessToken refreshToken : String) (expiresAt : Option Int)
    (err : Option String) (m : String)
    (hat : accessToken ≠ "") (hsave : env.saveErr = some m) :
    OEvent.saveProtectedSettings
        (savedBundle env accessToken refreshToken expiresAt) (some m) ∈
      (oAuthFinish env accessToken refreshToken expiresAt err).events ∧
    (savedBundle env accessToken refreshToken expiresAt).OAuthToken =
      accessToken ∧
    OEvent.logSaveError m ∈
      (oAuthFinish env accessToken refreshToken expiresAt err).events ∧
    (OEvent.doJobOAuthSuccessful ∈
        (oAuthFinish env accessToken refreshToken expiresAt err).events ↔
      env.service.hasOAuthSuccessful = true) ∧
    (oAuthFinish env accessToken refreshToken expiresAt err).respOf =
      some (Response.redirect 302
        ("https://telegram.me/" ++ env.service.botUsername)) := by
  rcases hps : env.protectedSettingsErr with _ | pm <;>
    cases hjob : env.service.hasOAuthSuccessful <;>
    refine ⟨?_, savedBundle_OAuthToken env accessToken refreshToken
      expiresAt, ?_, ?_, ?_⟩ <;>
    simp [oAuthFinish, hat, hsave, hps, hjob, OOutcome.events,
      OOutcome.respOf]

/-- Claim C10, witnessed: a callback whose receiver returned token `tok` and
whose settings store fails with `dbdown` still schedules the job and
redirects. -/
theorem c10_save_failure_only_logged_witness :
    OEvent.saveProtectedSettings
        (savedBundle oenvC10 "tok" "ref" (some 99)) (some "dbdown") ∈
      (oAuthFinish oenvC10 "tok" "ref" (some 99) none).events ∧
    (savedBundle oenvC10 "tok" "ref" (some 99)).OAuthToken = "tok" ∧
    OEvent.logSaveError "dbdown" ∈
      (oAuthFinish oenvC10 "tok" "ref" (some 99) none).events ∧
    (OEvent.doJobOAuthSuccessful ∈
        (oAuthFinish oenvC10 "tok" "ref" (some 99) none).events ↔
      oenvC10.service.hasOAuthSuccessful = true) ∧
    (oAuthFinish oenvC10 "tok" "ref" (some 99) none).respOf =
      some (Response.redirect 302
        ("https://telegram.me/" ++ oenvC10.service.botUsername)) :=
  c10_save_failure_only_logged oenvC10 "tok" "ref" (some 99) none "dbdown"
    (by decide) rfl

end Integram
